import Mathlib

set_option maxRecDepth 40000
set_option maxHeartbeats 1000000

/-!
Shallow embedding of the `asciiplay` terminal video player
(`src/asciiplay/src/*`), covering the color/LUT utilities, the glyph
renderer and its terminal-string serializer, the pipeline's queue
discipline and A/V-sync presenter policy, the audio playback clock, the
renderer-configuration control plane, and the exporter's glyph
substitution.

Modelling conventions:
* C++ `float`/`double` values are modelled as `ℚ`.  Every claim settled
  here is decided by computations that are exact in IEEE floating point
  (sums of byte values, clamps at exact values, integer palette
  distances), so the rational model mirrors the float program at the
  decisive points.
* The function `std::pow` (used only inside `apply_gamma`) is
  transcendental and is modelled as an explicit parameter
  `powFn : ℚ → ℚ → ℚ`; theorems that depend on its value only use it at
  arguments where the C library function is exact (`pow(0, e) = 0` for
  `e > 0`, `pow(x, 1) = x`), stated as hypotheses on `powFn` or by
  instantiating `powFn` accordingly.
* Byte strings (the pre-baked terminal escape string, UTF-8 glyphs) are
  modelled as `List ℕ` of byte values.
-/

namespace Asciiplay

/-- The C++ `std::clamp(v, lo, hi)`: `v < lo ? lo : hi < v ? hi : v`. -/
def clampQ (lo hi v : ℚ) : ℚ :=
  if v < lo then lo else if hi < v then hi else v

/-- C++ `static_cast<int>` on a floating value: truncation toward zero.
For a rational `num/den` (`den > 0`) this is `Int.tdiv num den`, the
T-division that rounds toward zero exactly as the C cast does. -/
def truncToInt (q : ℚ) : ℤ :=
  q.num.tdiv (q.den : ℤ)

/-- C++ `static_cast<uint8_t>` on a floating value known to lie in
`[0, 255]` (all call sites average byte values): truncation toward zero,
landing in `ℕ`. -/
def truncByte (q : ℚ) : ℕ :=
  (truncToInt q).toNat

/-- The function `pack_rgb` from `color_lut.hpp`:
`(uint32_t(r) << 16) | (uint32_t(g) << 8) | b`. -/
def pack_rgb (r g b : ℕ) : ℕ :=
  (r <<< 16) ||| (g <<< 8) ||| b

/-- The function `unpack_rgb` from `color_lut.hpp`, returning
`(r, g, b)`. -/
def unpack_rgb (v : ℕ) : ℕ × ℕ × ℕ :=
  ((v >>> 16) &&& 0xFF, (v >>> 8) &&& 0xFF, v &&& 0xFF)

/-- The C++ `std::to_string` on a nonnegative integer, as ASCII byte
values. -/
def natToDecBytes (n : ℕ) : List ℕ :=
  (Nat.toDigits 10 n).map Char.toNat

/-- Whether `needle` occurs as a contiguous subsequence of `haystack`
(the "string contains escape fragment" check of the spec's scenarios). -/
def containsSeq (needle haystack : List ℕ) : Bool :=
  match haystack with
  | [] => needle.isEmpty
  | _ :: rest => needle.isPrefixOf haystack || containsSeq needle rest

/-- Number of (possibly overlapping) occurrences of `needle` in
`haystack`. -/
def countSeq (needle haystack : List ℕ) : ℕ :=
  match haystack with
  | [] => 0
  | _ :: rest => (if needle.isPrefixOf haystack then 1 else 0) + countSeq needle rest

/-! ## Color / LUT utilities (`color_lut.hpp`) -/

/-- The table `ANSI_BASE_COLORS` from `color_lut.hpp` (entries
`(r, g, b)`). -/
def ANSI_BASE_COLORS : List (ℕ × ℕ × ℕ) :=
  [(0, 0, 0),       (205, 0, 0),     (0, 205, 0),     (205, 205, 0),
   (0, 0, 238),     (205, 0, 205),   (0, 205, 205),   (229, 229, 229),
   (127, 127, 127), (255, 0, 0),     (0, 255, 0),     (255, 255, 0),
   (92, 92, 255),   (255, 0, 255),   (0, 255, 255),   (255, 255, 255)]

/-- Channel level of the 6×6×6 cube in `make_xterm_palette`:
`i == 0 ? 0 : 55 + i*40`. -/
def cubeLevel (i : ℕ) : ℕ :=
  if i = 0 then 0 else 55 + i * 40

/-- The function `make_xterm_palette` from `color_lut.hpp`: 16 base
colors, then the 6×6×6 cube (`r` outer, `b` inner), then the 24-entry
gray ramp `8 + i*10`. -/
def make_xterm_palette : List (ℕ × ℕ × ℕ) :=
  ANSI_BASE_COLORS
    ++ ((List.range 6).flatMap fun r =>
        (List.range 6).flatMap fun g =>
        (List.range 6).map fun b => (cubeLevel r, cubeLevel g, cubeLevel b))
    ++ ((List.range 24).map fun i => (8 + i * 10, 8 + i * 10, 8 + i * 10))

/-- Squared RGB distance computed in `int` arithmetic, as in the loop
body of `xterm_index_from_rgb`. -/
def sqDist (p : ℕ × ℕ × ℕ) (r g b : ℕ) : ℤ :=
  ((p.1 : ℤ) - r) ^ 2 + ((p.2.1 : ℤ) - g) ^ 2 + ((p.2.2 : ℤ) - b) ^ 2

/-- One iteration of the scan loop of `xterm_index_from_rgb`: the
accumulator is `(next index, bestIndex, bestDist)` and an entry replaces
the best only on strictly smaller distance. -/
def xtermScanStep (r g b : ℕ) (acc : ℕ × ℕ × ℤ) (p : ℕ × ℕ × ℕ) : ℕ × ℕ × ℤ :=
  let d := sqDist p r g b
  if d < acc.2.2 then (acc.1 + 1, acc.1, d) else (acc.1 + 1, acc.2.1, acc.2.2)

/-- The function `xterm_index_from_rgb` from `color_lut.hpp`: linear scan
over the 256 palette entries keeping the first index attaining the
strictly smallest squared distance, starting from `bestIndex = 0`,
`bestDist = INT_MAX`. -/
def xterm_index_from_rgb (r g b : ℕ) : ℕ :=
  (make_xterm_palette.foldl (xtermScanStep r g b) (0, 0, (2147483647 : ℤ))).2.1

/-- Invariant of the scan loop of `xterm_index_from_rgb` after folding a
palette suffix `pal` starting at entry index `k` with accumulator
`(k, bIdx, dAcc)`: the counter advances by the length; the best distance
never increases, is a lower bound of all the suffix's distances, and is
either the initial accumulator unchanged or the distance of the first
suffix entry attaining it (all earlier entries being strictly worse). -/
def ScanSpec (r g b : ℕ) (pal : List (ℕ × ℕ × ℕ)) (k bIdx : ℕ) (dAcc : ℤ)
    (res : ℕ × ℕ × ℤ) : Prop :=
  res.1 = k + pal.length
  ∧ res.2.2 ≤ dAcc
  ∧ (∀ m, ∀ hm : m < pal.length, res.2.2 ≤ sqDist (pal.get ⟨m, hm⟩) r g b)
  ∧ ((res.2.1 = bIdx ∧ res.2.2 = dAcc)
     ∨ (∃ m, ∃ hm : m < pal.length,
         res.2.1 = k + m
         ∧ res.2.2 = sqDist (pal.get ⟨m, hm⟩) r g b
         ∧ res.2.2 < dAcc
         ∧ ∀ mB, mB < m → ∀ hmB : mB < pal.length,
             res.2.2 < sqDist (pal.get ⟨mB, hmB⟩) r g b))

/-- The function `luminance` from `color_lut.hpp` (Rec. 709 weights). -/
def luminance (r g b : ℕ) : ℚ :=
  (2126 / 10000 : ℚ) * r + (7152 / 10000 : ℚ) * g + (722 / 10000 : ℚ) * b

/-- The function `apply_gamma` from `color_lut.hpp`, with `std::pow`
abstracted as `powFn`. -/
def apply_gamma (powFn : ℚ → ℚ → ℚ) (value gamma : ℚ) : ℚ :=
  clampQ 0 1 (powFn (clampQ 0 1 (value / 255)) (1 / gamma))

/-- The function `apply_contrast` from `color_lut.hpp`. -/
def apply_contrast (value contrast : ℚ) : ℚ :=
  clampQ 0 1 ((value - 1/2) * contrast + 1/2)

/-- The enum `RenderMode` from `color_lut.hpp`. -/
inductive RenderMode
  | Gray
  | ANSI256
  | TrueColor
deriving DecidableEq, Repr

/-- The enum `DitherMode` from `color_lut.hpp`. -/
inductive DitherMode
  | Off
  | Bayer2
  | Bayer4
deriving DecidableEq, Repr

/-- The function `bayer_matrix` from `color_lut.hpp`, returning
`(size, thresholds)`. -/
def bayer_matrix : DitherMode → ℕ × List ℚ
  | .Off => (1, [0])
  | .Bayer2 => (2, [0/4, 2/4, 3/4, 1/4])
  | .Bayer4 => (4, [0/16, 8/16, 2/16, 10/16,
                    12/16, 4/16, 14/16, 6/16,
                    3/16, 11/16, 1/16, 9/16,
                    15/16, 7/16, 13/16, 5/16])

/-! ## Glyph renderer (`ascii_renderer.hpp` / `ascii_renderer.cpp`) -/

/-- The struct `RendererConfig` from `ascii_renderer.hpp`, with its
in-class default member values. -/
structure RendererConfig where
  mode : RenderMode := .Gray
  dither : DitherMode := .Bayer4
  halfBlock : Bool := false
  gridCols : ℕ := 120
  gridRows : ℕ := 60
  gamma : ℚ := 11/5
  contrast : ℚ := 1
deriving DecidableEq, Repr

/-- The struct `VideoFrame` from `decoder.hpp`: RGB24 row-major byte
data. -/
structure VideoFrame where
  width : ℕ := 0
  height : ℕ := 0
  data : List ℕ := []
  pts : ℚ := 0
deriving DecidableEq, Repr

/-- The struct `AsciiCell` from `ascii_renderer.hpp`; the glyph is the
UTF-8 byte sequence of the cell's string. -/
structure AsciiCell where
  glyph : List ℕ := [32]
  fg : ℕ := 0xFFFFFF
  bg : ℕ := 0x000000
deriving DecidableEq, Repr

/-- The struct `AsciiFrame` from `ascii_renderer.hpp`; `terminalString`
is the pre-baked escape byte string. -/
structure AsciiFrame where
  cols : ℕ := 0
  rows : ℕ := 0
  halfBlock : Bool := false
  pts : ℚ := 0
  cells : List AsciiCell := []
  terminalString : List ℕ := []
deriving DecidableEq, Repr

/-- The glyph table `kRamp` from `ascii_renderer.cpp`: the bytes of
`"@%#*+=-:. "` (densest first; index 9 is the space). -/
def kRamp : List ℕ := [64, 37, 35, 42, 43, 61, 45, 58, 46, 32]

/-- The UTF-8 bytes of the half-block glyph `"▄"` assigned by `render`
when `halfBlock` is on. -/
def halfBlockGlyph : List ℕ := [0xE2, 0x96, 0x84]

/-- The pixel loop of `AsciiRenderer::sampleCell`: the RGB triples read
from the cell rectangle, row-major.  Pixel coordinates use
`std::clamp(startY + y, 0, height - 1)`, which for nonnegative inputs is
the `min` with `height - 1`. -/
def samplePixels (rgb : List ℕ) (width height startX startY cellWidth cellHeight : ℕ) :
    List (ℕ × ℕ × ℕ) :=
  (List.range cellHeight).flatMap fun y =>
    (List.range cellWidth).map fun x =>
      let yy := min (startY + y) (height - 1)
      let xx := min (startX + x) (width - 1)
      let base := (yy * width + xx) * 3
      (rgb.getD base 0, rgb.getD (base + 1) 0, rgb.getD (base + 2) 0)

/-- The method `AsciiRenderer::sampleCell`.  `live` is the value of the
member `config_` observed by this call: the source reads `config_`
directly (not the snapshot taken by `render`) for the dither matrix,
gamma, contrast and mode, without holding `mutex_`. -/
def sampleCell (powFn : ℚ → ℚ → ℚ) (live : RendererConfig) (rgb : List ℕ)
    (width height startX startY cellWidth cellHeight row col : ℕ) : AsciiCell :=
  let matrix := bayer_matrix live.dither
  let samples := samplePixels rgb width height startX startY cellWidth cellHeight
  let count := samples.length
  let accumLuma := (samples.map fun s => luminance s.1 s.2.1 s.2.2).sum
  let accumR := (samples.map fun s => (s.1 : ℚ)).sum
  let accumG := (samples.map fun s => (s.2.1 : ℚ)).sum
  let accumB := (samples.map fun s => (s.2.2 : ℚ)).sum
  let avgLuma := accumLuma / (max 1 count : ℕ)
  let normalized := apply_contrast (apply_gamma powFn avgLuma live.gamma) live.contrast
  let rampIndex := (max 0 (min (truncToInt (normalized * ((kRamp.length : ℚ) - 1) + 1/2))
    ((kRamp.length : ℤ) - 1))).toNat
  let threshold := if 1 < matrix.1 then
    matrix.2.getD ((row % matrix.1) * matrix.1 + col % matrix.1) 0 else 0
  let glyph0 := [kRamp.getD rampIndex 0]
  let avgR := truncByte (accumR / (max 1 count : ℕ))
  let avgG := truncByte (accumG / (max 1 count : ℕ))
  let avgB := truncByte (accumB / (max 1 count : ℕ))
  match live.mode with
  | .Gray =>
      let gray := truncByte avgLuma
      { glyph := glyph0, fg := pack_rgb gray gray gray, bg := pack_rgb 0 0 0 }
  | .ANSI256 =>
      let idx := xterm_index_from_rgb avgR avgG avgB
      let p := make_xterm_palette.getD idx (0, 0, 0)
      { glyph := if 1 < normalized + threshold then [35] else glyph0,
        fg := pack_rgb p.1 p.2.1 p.2.2, bg := pack_rgb 0 0 0 }
  | .TrueColor =>
      { glyph := glyph0, fg := pack_rgb avgR avgG avgB, bg := pack_rgb 0 0 0 }

/-! ### Terminal byte-string serialization (second half of
`AsciiRenderer::render`) -/

/-- Bytes of the cursor-home escape `"\x1b[H"`. -/
def escHome : List ℕ := [27, 91, 72]

/-- Bytes of the truecolor-foreground escape opener `"\x1b[38;2;"`. -/
def escFgTrue : List ℕ := [27, 91, 51, 56, 59, 50, 59]

/-- Bytes of the 256-color-foreground escape opener `"\x1b[38;5;"`. -/
def escFg256 : List ℕ := [27, 91, 51, 56, 59, 53, 59]

/-- Bytes of the truecolor-background escape opener `"\x1b[48;2;"`. -/
def escBgTrue : List ℕ := [27, 91, 52, 56, 59, 50, 59]

/-- Bytes of the row terminator `"\x1b[0m\r\n"`. -/
def escReset : List ℕ := [27, 91, 48, 109, 13, 10]

/-- The per-row serializer state of `AsciiRenderer::render`: `currentFg`
initialized to `0xFFFFFFFF`, `currentBg` to `0`, `haveColor` to `false`
at the start of each row. -/
structure RowState where
  currentFg : ℕ
  currentBg : ℕ
  haveColor : Bool
deriving DecidableEq, Repr

/-- Initial per-row serializer state. -/
def rowStateOrigin : RowState := ⟨0xFFFFFFFF, 0, false⟩

/-- The lambda `flushTrueColor` inside `AsciiRenderer::render`. -/
def flushTrueColor (color : ℕ) : List ℕ :=
  escFgTrue ++ natToDecBytes (unpack_rgb color).1 ++ [59]
    ++ natToDecBytes (unpack_rgb color).2.1 ++ [59]
    ++ natToDecBytes (unpack_rgb color).2.2 ++ [109]

/-- One cell of the serialization loop in `AsciiRenderer::render`:
emits the foreground SGR by mode, then (if `halfBlock`) possibly a
background SGR, then the glyph bytes.  Returns the emitted bytes, the
"background SGR emitted?" flag, and the updated row state. -/
def serializeCell (mode : RenderMode) (halfBlock : Bool) (st : RowState)
    (cell : AsciiCell) : List ℕ × Bool × RowState :=
  let fgStep : List ℕ × RowState :=
    match mode with
    | .TrueColor =>
        if !st.haveColor || cell.fg ≠ st.currentFg then
          (flushTrueColor cell.fg, { st with currentFg := cell.fg, haveColor := true })
        else ([], st)
    | .ANSI256 =>
        let idx := xterm_index_from_rgb ((cell.fg >>> 16) &&& 0xFF)
          ((cell.fg >>> 8) &&& 0xFF) (cell.fg &&& 0xFF)
        (escFg256 ++ natToDecBytes idx ++ [109], st)
    | .Gray =>
        let gray := (cell.fg >>> 16) &&& 0xFF
        (escFgTrue ++ natToDecBytes gray ++ [59] ++ natToDecBytes gray ++ [59]
          ++ natToDecBytes gray ++ [109], st)
  let st1 := fgStep.2
  let bgEmit := halfBlock && (!st1.haveColor || cell.bg ≠ st1.currentBg)
  let bgStep : List ℕ × RowState :=
    if bgEmit then
      (escBgTrue ++ natToDecBytes (unpack_rgb cell.bg).1 ++ [59]
        ++ natToDecBytes (unpack_rgb cell.bg).2.1 ++ [59]
        ++ natToDecBytes (unpack_rgb cell.bg).2.2 ++ [109],
       { st1 with currentBg := cell.bg })
    else ([], st1)
  (fgStep.1 ++ bgStep.1 ++ cell.glyph, bgEmit, bgStep.2)

/-- Serialization of the cells of one row, threading the row state;
returns the emitted bytes and the per-cell background-SGR flags. -/
def serializeRowAux (mode : RenderMode) (halfBlock : Bool) :
    RowState → List AsciiCell → List ℕ × List Bool
  | _, [] => ([], [])
  | st, c :: rest =>
      let step := serializeCell mode halfBlock st c
      let restOut := serializeRowAux mode halfBlock step.2.2 rest
      (step.1 ++ restOut.1, step.2.1 :: restOut.2)

/-- Byte serialization of one row (with its trailing
`"\x1b[0m\r\n"`). -/
def serializeRow (mode : RenderMode) (halfBlock : Bool) (cells : List AsciiCell) : List ℕ :=
  (serializeRowAux mode halfBlock rowStateOrigin cells).1 ++ escReset

/-- Per-cell "background SGR emitted?" flags of one row. -/
def bgFlagsRow (mode : RenderMode) (halfBlock : Bool) (cells : List AsciiCell) : List Bool :=
  (serializeRowAux mode halfBlock rowStateOrigin cells).2

/-- The terminal byte string built by `AsciiRenderer::render`: cursor
home, then each row serialized with a fresh row state. -/
def serializeFrame (mode : RenderMode) (halfBlock : Bool) (rows cols : ℕ)
    (cells : List AsciiCell) : List ℕ :=
  escHome ++ (List.range rows).flatMap fun y =>
    serializeRow mode halfBlock ((List.range cols).map fun x => cells.getD (y * cols + x) {})

/-- The method `AsciiRenderer::render`.  `cfg` is the snapshot
`RendererConfig cfg = config();` taken (under the mutex) at entry; it
is used for the grid dimensions, the half-block flag, the cell sizes
and the serialization mode.  `liveAt k` is the value of the member
`config_` observed by the `k`-th `sampleCell` call of this frame
(`sampleCell` reads `config_` directly, unlocked, so a concurrent
mutator can make it differ from `cfg`; sequential executions have
`liveAt k = cfg` for all `k`). -/
def render (powFn : ℚ → ℚ → ℚ) (cfg : RendererConfig) (liveAt : ℕ → RendererConfig)
    (frame : VideoFrame) : AsciiFrame :=
  let cellWidth := max 1 (frame.width / cfg.gridCols)
  let cellHeight := max 1 (frame.height /
    (if cfg.halfBlock then cfg.gridRows * 2 else cfg.gridRows))
  let cells := (List.range cfg.gridRows).flatMap fun y =>
    (List.range cfg.gridCols).map fun x =>
      let callIdx := if cfg.halfBlock then 2 * (y * cfg.gridCols + x) else y * cfg.gridCols + x
      let startY := if cfg.halfBlock then y * 2 * cellHeight else y * cellHeight
      let cellTop := sampleCell powFn (liveAt callIdx) frame.data frame.width frame.height
        (x * cellWidth) startY cellWidth cellHeight y x
      if cfg.halfBlock then
        let cellBottom := sampleCell powFn (liveAt (callIdx + 1)) frame.data frame.width
          frame.height (x * cellWidth) (startY + cellHeight) cellWidth cellHeight (y + 1) x
        { glyph := halfBlockGlyph, fg := cellBottom.fg, bg := cellTop.fg }
      else cellTop
  { cols := cfg.gridCols, rows := cfg.gridRows, halfBlock := cfg.halfBlock, pts := frame.pts,
    cells := cells,
    terminalString := serializeFrame cfg.mode cfg.halfBlock cfg.gridRows cfg.gridCols cells }

/-! ## Renderer configuration control plane (`ascii_renderer.cpp`,
`pipeline.cpp` control thread, `main.cpp`) -/

/-- The method `AsciiRenderer::adjustGamma`:
`config_.gamma = std::clamp(config_.gamma + delta, 0.5f, 4.0f)`. -/
def adjustGamma (cfg : RendererConfig) (delta : ℚ) : RendererConfig :=
  { cfg with gamma := clampQ (1/2) 4 (cfg.gamma + delta) }

/-- The method `AsciiRenderer::adjustContrast`:
`config_.contrast = std::clamp(config_.contrast + delta, 0.2f, 3.0f)`. -/
def adjustContrast (cfg : RendererConfig) (delta : ℚ) : RendererConfig :=
  { cfg with contrast := clampQ (1/5) 3 (cfg.contrast + delta) }

/-- The method `AsciiRenderer::cycleMode`:
Gray → ANSI256 → TrueColor → Gray. -/
def cycleMode (cfg : RendererConfig) : RendererConfig :=
  { cfg with mode := match cfg.mode with
      | .Gray => .ANSI256
      | .ANSI256 => .TrueColor
      | .TrueColor => .Gray }

/-- The method `AsciiRenderer::cycleDither`:
Off → Bayer2 → Bayer4 → Off. -/
def cycleDither (cfg : RendererConfig) : RendererConfig :=
  { cfg with dither := match cfg.dither with
      | .Off => .Bayer2
      | .Bayer2 => .Bayer4
      | .Bayer4 => .Off }

/-- The method `AsciiRenderer::configure`: `config_ = cfg;` — the new
configuration is stored verbatim, without any clamping. -/
def configure (_old new : RendererConfig) : RendererConfig := new

/-- The renderer configuration built by `main` from the command line
(`main.cpp`): mode, dither, halfblock, optional grid, and the `--gamma`
and `--contrast` values parsed by `std::stof` — stored without
validation or clamping. -/
def rendererConfigFromCli (mode : RenderMode) (dither : DitherMode) (halfBlock : Bool)
    (gridCols gridRows : ℕ) (gamma contrast : ℚ) : RendererConfig :=
  { mode := mode, dither := dither, halfBlock := halfBlock,
    gridCols := gridCols, gridRows := gridRows, gamma := gamma, contrast := contrast }

/-- Renderer configurations reachable in the program: initialization
from the command line (`Pipeline::initialize` calls
`renderer_.configure(config.renderer)`), then the control-thread key
handlers of `Pipeline::controlThread` (`c`, `d`, `g`/`G`, `b`/`B`,
`1`/`2`/`3`, `r`). -/
inductive ConfigReachable : RendererConfig → Prop
  | fromCli (mode : RenderMode) (dither : DitherMode) (halfBlock : Bool)
      (gridCols gridRows : ℕ) (gamma contrast : ℚ) :
      ConfigReachable (rendererConfigFromCli mode dither halfBlock gridCols gridRows gamma contrast)
  | keyCycleMode {c : RendererConfig} : ConfigReachable c → ConfigReachable (cycleMode c)
  | keyCycleDither {c : RendererConfig} : ConfigReachable c → ConfigReachable (cycleDither c)
  | keyGammaDown {c : RendererConfig} : ConfigReachable c → ConfigReachable (adjustGamma c (-(1/10)))
  | keyGammaUp {c : RendererConfig} : ConfigReachable c → ConfigReachable (adjustGamma c (1/10))
  | keyContrastDown {c : RendererConfig} : ConfigReachable c → ConfigReachable (adjustContrast c (-(1/10)))
  | keyContrastUp {c : RendererConfig} : ConfigReachable c → ConfigReachable (adjustContrast c (1/10))
  | keySetMode {c : RendererConfig} (m : RenderMode) :
      ConfigReachable c → ConfigReachable (configure c { c with mode := m })

/-! ## Pipeline queues (`decoder.cpp`, `pipeline.cpp`) -/

/-- The capacity `kMaxVideoQueue` from `decoder.cpp`. -/
def kMaxVideoQueue : ℕ := 8

/-- Occupancies of the two buffers sitting between the decoding loop and
the ASCII worker: `decQ` is `Decoder::videoQueue_` (capacity 8, blocking
push) and `pipeQ` is `Pipeline::videoQueue_` (a plain `std::queue`,
pushed without any capacity check). -/
structure PipeState where
  decQ : ℕ
  pipeQ : ℕ
deriving DecidableEq, Repr

/-- Transitions of the video-frame path:
`produce` is `Decoder::pushVideoFrame` (enabled only while
`videoQueue_.size() < kMaxVideoQueue` — a full queue blocks);
`relay` is one iteration of `Pipeline::decodeThread`
(`decoder_.popVideoFrame` then an unconditional `videoQueue_.push`);
`consume` is the pop in `Pipeline::asciiThread`. -/
inductive PipeStep : PipeState → PipeState → Prop
  | produce (s : PipeState) (h : s.decQ < kMaxVideoQueue) :
      PipeStep s ⟨s.decQ + 1, s.pipeQ⟩
  | relay (s : PipeState) (h : 0 < s.decQ) :
      PipeStep s ⟨s.decQ - 1, s.pipeQ + 1⟩
  | consume (s : PipeState) (h : 0 < s.pipeQ) :
      PipeStep s ⟨s.decQ, s.pipeQ - 1⟩

/-- States of the video-frame path reachable from empty queues. -/
inductive PipeReachable : PipeState → Prop
  | start : PipeReachable ⟨0, 0⟩
  | step {s t : PipeState} : PipeReachable s → PipeStep s t → PipeReachable t

/-! ## Presenter pacing policy (`Pipeline::renderThread`, live mode) -/

/-- Outcome of one presenter iteration on a popped frame: present after
sleeping `sleptSeconds` (0 when presenting immediately), or drop. -/
inductive PresentOutcome
  | presented (sleptSeconds : ℚ)
  | dropped
deriving DecidableEq, Repr

/-- The live-mode pacing decision of `Pipeline::renderThread`
(lines 151–172): `target` is the frame pts, overridden by
`renderedFrames / targetFps` when `targetFps > 0`; on the audio path the
code sleeps `int(diff * 1000)` milliseconds when `diff > 0.01`, drops
when `diff < -0.05`, else presents immediately; on the wall-clock path
it sleeps `diff` seconds when `diff > 0` and always presents. -/
def presentDecision (audioEnabled : Bool) (targetFps : ℚ) (renderedFrames : ℕ)
    (pts audioClock elapsed : ℚ) : PresentOutcome :=
  let target := if 0 < targetFps then (renderedFrames : ℚ) / targetFps else pts
  if audioEnabled then
    let diff := target - audioClock
    if 1/100 < diff then .presented ((truncToInt (diff * 1000) : ℚ) / 1000)
    else if diff < -(1/20) then .dropped
    else .presented 0
  else
    let diff := target - elapsed
    if 0 < diff then .presented diff else .presented 0

/-- Counter updates after one presenter iteration: a presented frame
increments `renderedFrames_`, a dropped frame increments
`droppedFrames_` and skips the rest of the loop body (`continue`). -/
def countersAfter (outcome : PresentOutcome) (renderedFrames droppedFrames : ℕ) : ℕ × ℕ :=
  match outcome with
  | .presented _ => (renderedFrames + 1, droppedFrames)
  | .dropped => (renderedFrames, droppedFrames + 1)

/-! ## Audio playback clock (`audio_player.cpp`) -/

/-- State of `AudioPlayer` relevant to the playback clock: the internal
sample ring `queue_` (interleaved s16 samples) and the atomic counter
`samplesPlayed_` (which counts sample *frames*). -/
structure AudioState where
  queue : List ℤ
  samplesPlayed : ℕ
deriving DecidableEq, Repr

/-- The callback `AudioPlayer::onData` for a request of `frameCount`
frames, restricted to its effect on `AudioState`: an empty ring
zero-fills the output and returns without touching `samplesPlayed_`;
otherwise `min(queue.size(), frameCount*channels)` samples are taken
from the ring and `samplesPlayed_` advances by
`samplesAvailable / channels` (integer division).  The zero-filled
remainder of the output buffer is not counted. -/
def onData (channels frameCount : ℕ) (st : AudioState) : AudioState :=
  let samplesRequested := frameCount * channels
  if st.queue.isEmpty then st
  else
    let samplesAvailable := min st.queue.length samplesRequested
    { queue := st.queue.drop samplesAvailable,
      samplesPlayed := st.samplesPlayed + samplesAvailable / channels }

/-- The method `AudioPlayer::playbackTime` (audio enabled):
`samplesPlayed_ / device_.sampleRate`. -/
def playbackTime (sampleRate : ℕ) (st : AudioState) : ℚ :=
  (st.samplesPlayed : ℚ) / (sampleRate : ℚ)

/-! ## Exporter glyph substitution (`Exporter::blitAscii`) -/

/-- The glyph byte handed to `font8x16::blit_glyph` for a cell in
`Exporter::blitAscii`: the first byte of the cell's glyph string
(`' '` when empty), read as a (signed) C++ `char` and replaced by `'#'`
when `glyph < 32 || glyph > 126`. -/
def exportGlyphByte (glyph : List ℕ) : ℕ :=
  let b := glyph.headD 32
  let s : ℤ := if b < 128 then (b : ℤ) else (b : ℤ) - 256
  if s < 32 ∨ 126 < s then 35 else b

/-- The `(glyph, fg, bg)` triple passed to `font8x16::blit_glyph` for a
cell in `Exporter::blitAscii` (the glyph bitmap is rendered in `cell.fg`
over `cell.bg`). -/
def blitCall (cell : AsciiCell) : ℕ × ℕ × ℕ :=
  (exportGlyphByte cell.glyph, cell.fg, cell.bg)

/-! ## Concrete instantiations used by counterexamples and witnesses -/

/-- Interpretation of `std::pow` returning 0 everywhere; it agrees with
the C function at base 0 and positive exponent, the only point where
claims touched by it are decided. -/
def powZero : ℚ → ℚ → ℚ := fun _ _ => 0

/-- Interpretation of `std::pow` returning its base; it agrees with the
C function at exponent 1 (`gamma = 1`), exactly. -/
def powIdFst : ℚ → ℚ → ℚ := fun x _ => x

/-- Specification-level background-SGR emission pattern for the
TrueColor half-block path: a cell emits iff its `bg` differs from the
last emitted `bg`, with the tracker seeded at `0x000000`.  This is the
statement side of the C7 comparison, not a source translation. -/
def bgSpecTC : ℕ → List AsciiCell → List Bool
  | _, [] => []
  | cur, c :: rest =>
    if c.bg ≠ cur then true :: bgSpecTC c.bg rest else false :: bgSpecTC cur rest

/-- Snapshot configuration of the C3 failing input: Gray 2×1 grid,
gamma 1, contrast 1, dither off. -/
def cfgC3 : RendererConfig :=
  { mode := .Gray, dither := .Off, halfBlock := false,
    gridCols := 2, gridRows := 1, gamma := 1, contrast := 1 }

/-- Failing input frame of C3: two pixels of value `(50, 50, 50)`. -/
def frameC3 : VideoFrame :=
  { width := 2, height := 1, data := [50, 50, 50, 50, 50, 50], pts := 0 }

/-- Live-config schedule of the C3 failing input: a concurrent
`adjustContrast` lands between the two `sampleCell` calls, so the second
call observes contrast 3 while the snapshot has contrast 1. -/
def liveC3 : ℕ → RendererConfig :=
  fun k => if k = 1 then { cfgC3 with contrast := 3 } else cfgC3

/-- Configuration of the C5 scenario: ANSI256 mode on a 1×1 grid with
the default dither/gamma/contrast. -/
def cfgC5 : RendererConfig :=
  { mode := .ANSI256, dither := .Bayer4, halfBlock := false,
    gridCols := 1, gridRows := 1, gamma := 11/5, contrast := 1 }

/-- Input frame of the C5 scenario: one pixel `rgb = (200, 10, 10)`. -/
def frameC5 : VideoFrame :=
  { width := 1, height := 1, data := [200, 10, 10], pts := 0 }

/-- Palette entry selected for the C5 input `(200, 10, 10)`. -/
def palC5 : ℕ × ℕ × ℕ := make_xterm_palette.getD (xterm_index_from_rgb 200 10 10) (0, 0, 0)

/-- The cell produced by the C5 render, with the palette lookup left
symbolic. -/
def cellC5 : AsciiCell := ⟨[64], pack_rgb palC5.1 palC5.2.1 palC5.2.2, pack_rgb 0 0 0⟩

/-- Bytes of the fragment `"38;5;160"` expected by the C5 claim. -/
def frag160 : List ℕ := [51, 56, 59, 53, 59, 49, 54, 48]

/-- Bytes of the fragment `"38;5;1"` actually emitted in the C5
scenario. -/
def frag1 : List ℕ := [51, 56, 59, 53, 59, 49]

/-- Configuration of the C6 counterexample: Gray 1×1 grid, gamma 1,
contrast 1, dither off. -/
def cfgC6 : RendererConfig :=
  { mode := .Gray, dither := .Off, halfBlock := false,
    gridCols := 1, gridRows := 1, gamma := 1, contrast := 1 }

/-- All-black 1×1 input frame of the C6 counterexample. -/
def frameC6 : VideoFrame :=
  { width := 1, height := 1, data := [0, 0, 0], pts := 0 }

/-- Cell of the C7 counterexample: a nonzero background, repeated. -/
def cellC7 : AsciiCell := { glyph := [32], fg := 0, bg := 5 }

/-- Half-block configuration on a 1×1 grid used by the C10 witness. -/
def cfgC10 : RendererConfig :=
  { mode := .TrueColor, dither := .Off, halfBlock := true,
    gridCols := 1, gridRows := 1, gamma := 1, contrast := 1 }

/-- Input frame of the C10 witness: a 1×2 frame, black over white. -/
def frameC10 : VideoFrame :=
  { width := 1, height := 2, data := [0, 0, 0, 255, 255, 255], pts := 0 }

/-! ## Helper lemmas -/

/-- Clamping into `[lo, hi]` stays inside the interval. -/
lemma clampQ_bounds {lo hi : ℚ} (v : ℚ) (h : lo ≤ hi) :
    lo ≤ clampQ lo hi v ∧ clampQ lo hi v ≤ hi := by
  unfold clampQ
  split_ifs with h1 h2
  · exact ⟨le_refl _, h⟩
  · exact ⟨h, le_refl _⟩
  · constructor <;> linarith

/-- Clamping a value at or below the lower bound returns the lower
bound. -/
lemma clampQ_eq_lo {lo hi v : ℚ} (hv : v ≤ lo) (h : lo ≤ hi) :
    clampQ lo hi v = lo := by
  unfold clampQ
  split_ifs with h1 h2
  · rfl
  · linarith
  · linarith

/-- The pipeline relay queue can reach any occupancy while the decoder
queue returns to empty: alternate one bounded push with one relay. -/
lemma pipeReachable_zero (n : ℕ) : PipeReachable ⟨0, n⟩ := by
  induction n with
  | zero => exact .start
  | succ k ih =>
      have h1 : PipeReachable ⟨1, k⟩ :=
        .step ih (.produce ⟨0, k⟩ (by simp [kMaxVideoQueue]))
      exact .step h1 (.relay ⟨1, k⟩ (by simp))

/-! ## C1 — video-queue backpressure -/

/-- C1, counterexample: the claim says at most 8 video frames are ever
buffered between the decoder and the ASCII worker in the video queue,
but the pipeline's relay queue (`Pipeline::videoQueue_`, the queue the
ASCII worker pops) reaches occupancy 9, which exceeds 8. -/
theorem c1_counterexample :
    PipeReachable ⟨0, 9⟩ ∧ ¬ (PipeState.mk 0 9).pipeQ ≤ 8 :=
  ⟨pipeReachable_zero 9, by decide⟩

/-- C1, amended: the decoder's internal video queue
(`Decoder::videoQueue_`) never holds more than `kMaxVideoQueue = 8`
frames — its push blocks while full — but the pipeline's relay queue
(`Pipeline::videoQueue_`) between the decode thread and the ASCII worker
is a plain `std::queue` pushed without a capacity check, so the frames
buffered there reach every occupancy `n`. -/
theorem c1_decoder_queue_bounded_relay_unbounded :
    (∀ s : PipeState, PipeReachable s → s.decQ ≤ kMaxVideoQueue)
    ∧ (∀ n : ℕ, PipeReachable ⟨0, n⟩) := by
  constructor
  · intro s hs
    induction hs with
    | start => simp [kMaxVideoQueue]
    | step hprev hstep ih =>
        rename_i u t
        cases hstep with
        | produce h =>
            show u.decQ + 1 ≤ kMaxVideoQueue
            unfold kMaxVideoQueue at h ⊢
            omega
        | relay h =>
            show u.decQ - 1 ≤ kMaxVideoQueue
            unfold kMaxVideoQueue at ih ⊢
            omega
        | consume h => exact ih
  · exact pipeReachable_zero

/-- C1, witness: the amended theorem applied at the reachable state
`⟨0, 9⟩`. -/
theorem c1_witness :
    (PipeState.mk 0 9).decQ ≤ kMaxVideoQueue ∧ PipeReachable ⟨0, 9⟩ :=
  ⟨c1_decoder_queue_bounded_relay_unbounded.1 ⟨0, 9⟩
    (c1_decoder_queue_bounded_relay_unbounded.2 9),
   c1_decoder_queue_bounded_relay_unbounded.2 9⟩

/-! ## C2 — presenter drop/wait policy -/

/-- C2: in live mode with audio enabled (no fps override, so the target
is the frame pts), a popped frame with `diff = pts − audioClock` above
10 ms sleeps `int(diff·1000)` ms and presents; a frame with `diff` below
−50 ms is dropped — never presented — with the dropped counter
incremented and the rendered counter unchanged; the wall-clock path
never drops. -/
theorem c2_present_policy :
    (∀ (renderedFrames : ℕ) (pts audioClock elapsed : ℚ),
        1/100 < pts - audioClock →
        presentDecision true 0 renderedFrames pts audioClock elapsed =
          .presented ((truncToInt ((pts - audioClock) * 1000) : ℚ) / 1000))
    ∧ (∀ (renderedFrames droppedFrames : ℕ) (pts audioClock elapsed : ℚ),
        pts - audioClock < -(1/20) →
        presentDecision true 0 renderedFrames pts audioClock elapsed = .dropped
        ∧ countersAfter (presentDecision true 0 renderedFrames pts audioClock elapsed)
            renderedFrames droppedFrames = (renderedFrames, droppedFrames + 1))
    ∧ (∀ (targetFps : ℚ) (renderedFrames : ℕ) (pts audioClock elapsed : ℚ),
        presentDecision false targetFps renderedFrames pts audioClock elapsed ≠ .dropped) := by
  refine ⟨?_, ?_, ?_⟩
  · intro renderedFrames pts audioClock elapsed h
    norm_num only [presentDecision]
    split_ifs with h1 h2 <;>
      first
        | rfl
        | (exfalso; linarith)
        | (exfalso; simp_all)
  · intro renderedFrames droppedFrames pts audioClock elapsed h
    have hdec : presentDecision true 0 renderedFrames pts audioClock elapsed = .dropped := by
      norm_num only [presentDecision]
      split_ifs with h1 h2 <;>
      first
        | rfl
        | (exfalso; linarith)
        | (exfalso; simp_all)
    exact ⟨hdec, by simp [hdec, countersAfter]⟩
  · intro targetFps renderedFrames pts audioClock elapsed
    simp only [presentDecision]
    split_ifs <;> simp_all

/-- C2, witness: the three parts of the policy theorem at concrete
inputs. -/
theorem c2_witness :
    presentDecision true 0 5 1 0 0 =
      .presented ((truncToInt (((1 : ℚ) - 0) * 1000) : ℚ) / 1000)
    ∧ presentDecision true 0 5 0 1 0 = .dropped
    ∧ countersAfter (presentDecision true 0 5 0 1 0) 5 2 = (5, 3)
    ∧ presentDecision false 0 5 0 1 0 ≠ .dropped :=
  ⟨c2_present_policy.1 5 1 0 0 (by norm_num),
   (c2_present_policy.2.1 5 2 0 1 0 (by norm_num)).1,
   (c2_present_policy.2.1 5 2 0 1 0 (by norm_num)).2,
   c2_present_policy.2.2 0 5 0 1 0⟩

/-! ## C9 — gamma/contrast bounds -/

/-- C9, counterexample: a configuration with `gamma = 10` is reachable
directly from the command line (`--gamma 10` is parsed by `std::stof`
and stored by `configure` without clamping), violating the claimed
invariant `gamma ∈ [0.5, 4.0]`. -/
theorem c9_counterexample :
    ConfigReachable (rendererConfigFromCli .ANSI256 .Bayer4 false 120 60 10 1)
    ∧ ¬ (rendererConfigFromCli .ANSI256 .Bayer4 false 120 60 10 1).gamma ≤ 4 :=
  ⟨.fromCli .ANSI256 .Bayer4 false 120 60 10 1,
   by norm_num [rendererConfigFromCli]⟩

/-- C9, amended: the keyboard mutators `adjustGamma` and
`adjustContrast` clamp into `[0.5, 4.0]` and `[0.2, 3.0]` for every
starting value and delta, and the mode/dither mutations leave gamma and
contrast untouched; but `configure` stores its argument verbatim, so
initialization from unvalidated `--gamma`/`--contrast` values does not
respect the bounds. -/
theorem c9_adjust_clamps_configure_does_not :
    (∀ (cfg : RendererConfig) (delta : ℚ),
        1/2 ≤ (adjustGamma cfg delta).gamma ∧ (adjustGamma cfg delta).gamma ≤ 4)
    ∧ (∀ (cfg : RendererConfig) (delta : ℚ),
        1/5 ≤ (adjustContrast cfg delta).contrast ∧ (adjustContrast cfg delta).contrast ≤ 3)
    ∧ (∀ cfg : RendererConfig,
        (cycleMode cfg).gamma = cfg.gamma ∧ (cycleMode cfg).contrast = cfg.contrast
        ∧ (cycleDither cfg).gamma = cfg.gamma ∧ (cycleDither cfg).contrast = cfg.contrast)
    ∧ (∀ old new : RendererConfig, configure old new = new) := by
  refine ⟨?_, ?_, ?_, ?_⟩
  · intro cfg delta
    exact clampQ_bounds (cfg.gamma + delta) (by norm_num)
  · intro cfg delta
    exact clampQ_bounds (cfg.contrast + delta) (by norm_num)
  · intro cfg
    exact ⟨rfl, rfl, rfl, rfl⟩
  · intro old new
    rfl

/-! ## C8 — audio playback clock -/

/-- C8, counterexample: the claim says the playback clock advances by
`n / sample_rate` after a callback requesting `n` frames even when the
ring underruns and the callback zero-fills; but with an empty ring a
callback requesting 4 frames leaves `samplesPlayed_` untouched, so the
clock advances by 0, not `4/48000`. -/
theorem c8_counterexample :
    onData 2 4 ⟨[], 0⟩ = ⟨[], 0⟩
    ∧ playbackTime 48000 (onData 2 4 ⟨[], 0⟩) = 0
    ∧ (0 : ℚ) ≠ 4 / 48000 := by
  refine ⟨by decide, ?_, by norm_num⟩
  norm_num [onData, playbackTime]

/-- C8, amended: a device callback advances the playback clock only by
the sample frames actually taken from the ring —
`min(ring, n·channels) / channels` frames, and none at all when the ring
is empty; zero-filled underrun frames are not counted.  When the ring
holds at least `n·channels` samples the clock does advance by exactly
`n / 48000`. -/
theorem c8_clock_counts_ring_frames :
    ∀ (channels frameCount : ℕ) (st : AudioState), 0 < channels →
      ((onData channels frameCount st).samplesPlayed =
        st.samplesPlayed +
          (if st.queue.isEmpty then 0
           else min st.queue.length (frameCount * channels) / channels))
      ∧ (frameCount * channels ≤ st.queue.length →
          playbackTime 48000 (onData channels frameCount st)
            - playbackTime 48000 st = (frameCount : ℚ) / 48000) := by
  intro channels frameCount st hch
  constructor
  · unfold onData
    split_ifs with h
    · simp [h]
    · simp [h]
  · intro hle
    unfold onData
    split_ifs with h
    · have hnil : st.queue = [] := by simpa using h
      have h0 : st.queue.length = 0 := by simp [hnil]
      have hf : frameCount = 0 := by
        rw [h0] at hle
        rcases Nat.mul_eq_zero.mp (Nat.le_zero.mp hle) with hf | hc
        · exact hf
        · omega
      simp [hf, playbackTime]
    · have hmin : min st.queue.length (frameCount * channels) = frameCount * channels :=
        min_eq_right hle
      simp only [playbackTime, hmin]
      rw [Nat.mul_div_cancel _ hch]
      push_cast
      ring

/-- C8, witness: the amended theorem at channels 2, a request of 3
frames, and a 7-sample ring. -/
theorem c8_witness :
    ((onData 2 3 ⟨[1, 2, 3, 4, 5, 6, 7], 10⟩).samplesPlayed =
      10 + (if ([1, 2, 3, 4, 5, 6, 7] : List ℤ).isEmpty then 0
            else min ([1, 2, 3, 4, 5, 6, 7] : List ℤ).length (3 * 2) / 2))
    ∧ playbackTime 48000 (onData 2 3 ⟨[1, 2, 3, 4, 5, 6, 7], 10⟩)
        - playbackTime 48000 ⟨[1, 2, 3, 4, 5, 6, 7], 10⟩ = (3 : ℚ) / 48000 :=
  ⟨(c8_clock_counts_ring_frames 2 3 ⟨[1, 2, 3, 4, 5, 6, 7], 10⟩ (by norm_num)).1,
   (c8_clock_counts_ring_frames 2 3 ⟨[1, 2, 3, 4, 5, 6, 7], 10⟩ (by norm_num)).2 (by decide)⟩

/-! ## C3 — config snapshot vs. live reads in `render` -/

/-- C3: `render` takes a config snapshot at entry, but `sampleCell`
reads the member `config_` directly (unlocked), so a mutation landing
between the two `sampleCell` calls of one frame changes the contrast
used for the second cell: with snapshot contrast 1 throughout, the
frame whose second call observes contrast 3 differs from the
sequential render — the glyph of cell 1 flips from `'#'` to `'@'`.
(`powIdFst` models `pow(x, 1)` exactly; gamma is 1 here.) -/
theorem c3_render_reads_live_config_midframe :
    render powIdFst cfgC3 liveC3 frameC3 ≠ render powIdFst cfgC3 (fun _ => cfgC3) frameC3
    ∧ (render powIdFst cfgC3 liveC3 frameC3).cells.map (fun c => c.glyph) = [[35], [64]]
    ∧ (render powIdFst cfgC3 (fun _ => cfgC3) frameC3).cells.map (fun c => c.glyph)
        = [[35], [35]] := by
  have h1 : (render powIdFst cfgC3 liveC3 frameC3).cells.map (fun c => c.glyph)
      = [[35], [64]] := of_decide_eq_true (by with_unfolding_all rfl)
  have h2 : (render powIdFst cfgC3 (fun _ => cfgC3) frameC3).cells.map (fun c => c.glyph)
      = [[35], [35]] := of_decide_eq_true (by with_unfolding_all rfl)
  refine ⟨?_, h1, h2⟩
  intro h
  rw [h, h2] at h1
  exact absurd h1 (by decide)

/-! ## C5 — ANSI256 quantization of (200, 10, 10) -/

/-- The palette entry for `(200, 10, 10)` is index 1, `(205, 0, 0)`,
packed as `0xCD0000`. -/
lemma cellC5_eval : cellC5 = ⟨[64], 13434880, 0⟩ := by decide

/-- Staged evaluation of the C5 render: the frame equals the record
whose single cell carries the palette entry of `(200, 10, 10)` and whose
terminal string is the serialization of that cell. -/
lemma renderC5_eval :
    render powZero cfgC5 (fun _ => cfgC5) frameC5
      = { cols := 1, rows := 1, halfBlock := false, pts := 0,
          cells := [cellC5],
          terminalString := serializeFrame .ANSI256 false 1 1 [cellC5] } := by
  with_unfolding_all rfl

/-- C5, counterexample: the nearest palette entry to `(200, 10, 10)` is
index 1 (`(205, 0, 0)`, squared distance 225), not index 160
(`(215, 0, 0)`, squared distance 425), and the emitted terminal string
of the 1×1 ANSI256 render does not contain `"38;5;160"`. -/
theorem c5_counterexample :
    containsSeq frag160 (render powZero cfgC5 (fun _ => cfgC5) frameC5).terminalString = false
    ∧ xterm_index_from_rgb 200 10 10 = 1
    ∧ (1 : ℕ) ≠ 160 := by
  rw [renderC5_eval, cellC5_eval]
  refine ⟨by decide, by decide, by decide⟩

/-- The cell foreground and background colors do not depend on the
interpretation of `std::pow`: `powFn` feeds only the `normalized`
luminance, which only selects the glyph. -/
lemma sampleCell_color_pow_irrelevant (powFn powFnB : ℚ → ℚ → ℚ) (live : RendererConfig)
    (rgb : List ℕ) (w h sx sy cw ch row col : ℕ) :
    (sampleCell powFn live rgb w h sx sy cw ch row col).fg
      = (sampleCell powFnB live rgb w h sx sy cw ch row col).fg
    ∧ (sampleCell powFn live rgb w h sx sy cw ch row col).bg
      = (sampleCell powFnB live rgb w h sx sy cw ch row col).bg := by
  obtain ⟨mode, dither, hb, gc, gr, gam, con⟩ := live
  cases mode <;> exact ⟨rfl, rfl⟩

/-- Foreground colors of a rendered frame do not depend on the
interpretation of `std::pow`. -/
lemma render_fg_pow_irrelevant (powFn powFnB : ℚ → ℚ → ℚ) (cfg : RendererConfig)
    (liveAt : ℕ → RendererConfig) (frame : VideoFrame) :
    (render powFn cfg liveAt frame).cells.map (fun c => c.fg)
      = (render powFnB cfg liveAt frame).cells.map (fun c => c.fg) := by
  simp only [render, List.map_flatMap]
  congr 1
  funext y
  simp only [List.map_map]
  congr 1
  funext x
  simp only [Function.comp]
  by_cases hb : cfg.halfBlock <;> simp only [hb, if_true, if_false, ite_true, ite_false]
  · exact (sampleCell_color_pow_irrelevant powFn powFnB _ _ _ _ _ _ _ _ _ _).1
  · exact (sampleCell_color_pow_irrelevant powFn powFnB _ _ _ _ _ _ _ _ _ _).1

/-- C5, amended: rendering the 1×1 frame `rgb = (200, 10, 10)` in
ANSI256 mode selects palette index 1 (`(205, 0, 0)`) for the cell
foreground — for every interpretation of `std::pow`, since the gamma
curve only influences the glyph — and the emitted terminal byte string
contains the escape fragment `"38;5;1"`. -/
theorem c5_selects_index_one :
    (∀ powFn : ℚ → ℚ → ℚ,
        (render powFn cfgC5 (fun _ => cfgC5) frameC5).cells.map (fun c => c.fg)
          = [pack_rgb 205 0 0])
    ∧ containsSeq frag1 (render powZero cfgC5 (fun _ => cfgC5) frameC5).terminalString
        = true := by
  have base : (render powZero cfgC5 (fun _ => cfgC5) frameC5).cells.map (fun c => c.fg)
      = [pack_rgb 205 0 0] := by
    rw [renderC5_eval, cellC5_eval]
    decide
  refine ⟨fun powFn => ?_, ?_⟩
  · rw [render_fg_pow_irrelevant powFn powZero]
    exact base
  · rw [renderC5_eval, cellC5_eval]
    decide

/-! ## C6 — all-black input -/

/-- Staged evaluation of the C6 counterexample render. -/
lemma renderC6_cells :
    (render powIdFst cfgC6 (fun _ => cfgC6) frameC6).cells
      = [{ glyph := [64], fg := 0, bg := 0 }] :=
  of_decide_eq_true (by with_unfolding_all rfl)

/-- C6, counterexample: on an all-black 1×1 frame with the Gray 1×1
configuration (gamma 1, contrast 1), the rendered glyph is byte 64
(`'@'`, the leftmost ramp character), not the claimed byte 32
(`' '`, the rightmost); the fg is 0 as claimed. -/
theorem c6_counterexample :
    (render powIdFst cfgC6 (fun _ => cfgC6) frameC6).cells
      = [{ glyph := [64], fg := 0, bg := 0 }]
    ∧ (64 : ℕ) ≠ 32 :=
  ⟨renderC6_cells, by decide⟩

/-- Reading any position of an all-zero byte list yields zero. -/
lemma getD_zero_of_all {l : List ℕ} (hl : ∀ x ∈ l, x = 0) : ∀ n, l.getD n 0 = 0 := by
  intro n
  rcases lt_or_ge n l.length with hlt | hge
  · rw [List.getD_eq_getElem l 0 hlt]
    exact hl _ (List.getElem_mem hlt)
  · exact List.getD_eq_default l 0 hge

/-- Luminance of black is zero. -/
lemma luminance_zero : luminance 0 0 0 = 0 := by
  unfold luminance
  norm_num

/-- Every Bayer threshold is strictly below 1 (the largest is 15/16). -/
lemma bayer_getD_lt_one (d : DitherMode) (i : ℕ) : (bayer_matrix d).2.getD i 0 < 1 := by
  have hmem : ∀ x ∈ (bayer_matrix d).2, x < 1 := by
    cases d <;> (intro x hx; fin_cases hx <;> norm_num)
  rcases lt_or_ge i (bayer_matrix d).2.length with hlt | hge
  · rw [List.getD_eq_getElem _ 0 hlt]
    exact hmem _ (List.getElem_mem hlt)
  · rw [List.getD_eq_default _ 0 hge]
    norm_num

/-- On an all-black pixel source, `sampleCell` produces fg = bg = 0 in
every mode, and (when contrast ≥ 1) the ramp glyph `'@'` (byte 64) —
the leftmost ramp character, selected by ramp index 0. -/
lemma sampleCell_black (powFn : ℚ → ℚ → ℚ) (hpow : ∀ e : ℚ, 0 < e → powFn 0 e = 0)
    (live : RendererConfig) (hγ : 0 < live.gamma)
    (rgb : List ℕ) (hrgb : ∀ x ∈ rgb, x = 0)
    (w h sx sy cw ch row col : ℕ) :
    (sampleCell powFn live rgb w h sx sy cw ch row col).fg = 0
    ∧ (sampleCell powFn live rgb w h sx sy cw ch row col).bg = 0
    ∧ (1 ≤ live.contrast →
        (sampleCell powFn live rgb w h sx sy cw ch row col).glyph = [64]) := by
  obtain ⟨mode, dither, hb2, gc, gr, gam, con⟩ := live
  simp only [RendererConfig.gamma] at hγ
  have hz := getD_zero_of_all hrgb
  have hsmem : ∀ q ∈ samplePixels rgb w h sx sy cw ch, q = ((0 : ℕ), (0 : ℕ), (0 : ℕ)) := by
    intro q hq
    simp only [samplePixels, List.mem_flatMap, List.mem_map, List.mem_range] at hq
    obtain ⟨y, hy, x, hx, rfl⟩ := hq
    simp only [hz]
  have hluma : ((samplePixels rgb w h sx sy cw ch).map
      fun s => luminance s.1 s.2.1 s.2.2).sum = 0 := by
    apply List.sum_eq_zero
    intro q hq
    simp only [List.mem_map] at hq
    obtain ⟨s, hs, rfl⟩ := hq
    rw [hsmem s hs]
    exact luminance_zero
  have hsumR : ((samplePixels rgb w h sx sy cw ch).map fun s => ((s.1 : ℚ))).sum = 0 := by
    apply List.sum_eq_zero
    intro q hq
    simp only [List.mem_map] at hq
    obtain ⟨s, hs, rfl⟩ := hq
    rw [hsmem s hs]
    simp
  have hsumG : ((samplePixels rgb w h sx sy cw ch).map fun s => ((s.2.1 : ℚ))).sum = 0 := by
    apply List.sum_eq_zero
    intro q hq
    simp only [List.mem_map] at hq
    obtain ⟨s, hs, rfl⟩ := hq
    rw [hsmem s hs]
    simp
  have hsumB : ((samplePixels rgb w h sx sy cw ch).map fun s => ((s.2.2 : ℚ))).sum = 0 := by
    apply List.sum_eq_zero
    intro q hq
    simp only [List.mem_map] at hq
    obtain ⟨s, hs, rfl⟩ := hq
    rw [hsmem s hs]
    simp
  have hgamma0 : apply_gamma powFn 0 gam = 0 := by
    unfold apply_gamma
    have hc1 : clampQ 0 1 ((0 : ℚ) / 255) = 0 := by
      rw [zero_div]
      unfold clampQ
      norm_num
    rw [hc1, hpow (1 / gam) (by positivity)]
    unfold clampQ
    norm_num
  have ht0 : truncByte (0 : ℚ) = 0 := by decide
  have hramp0 : (max 0 (min (truncToInt ((0 : ℚ) * ((kRamp.length : ℚ) - 1) + 1/2))
      ((kRamp.length : ℤ) - 1))).toNat = 0 := by
    have hx : (0 : ℚ) * ((kRamp.length : ℚ) - 1) + 1/2 = 1/2 := by ring
    rw [hx, show truncToInt (1/2 : ℚ) = 0 from by with_unfolding_all rfl]
    decide
  have hcontrast0 : 1 ≤ con → apply_contrast 0 con = 0 := by
    intro hcon
    unfold apply_contrast
    apply clampQ_eq_lo
    · nlinarith
    · norm_num
  simp only [sampleCell, RendererConfig.mode, RendererConfig.dither, RendererConfig.gamma,
    RendererConfig.contrast]
  rw [hluma, hsumR, hsumG, hsumB]
  simp only [zero_div]
  rw [hgamma0, ht0]
  cases mode with
  | Gray =>
      refine ⟨?_, ?_, ?_⟩
      · show pack_rgb 0 0 0 = 0
        decide
      · show pack_rgb 0 0 0 = 0
        decide
      · intro hcon
        rw [hcontrast0 hcon, hramp0]
        show [kRamp.getD 0 0] = [64]
        decide
  | ANSI256 =>
      refine ⟨?_, ?_, ?_⟩
      · show pack_rgb (make_xterm_palette.getD (xterm_index_from_rgb 0 0 0) (0, 0, 0)).1
          (make_xterm_palette.getD (xterm_index_from_rgb 0 0 0) (0, 0, 0)).2.1
          (make_xterm_palette.getD (xterm_index_from_rgb 0 0 0) (0, 0, 0)).2.2 = 0
        decide
      · show pack_rgb 0 0 0 = 0
        decide
      · intro hcon
        rw [hcontrast0 hcon]
        have hthr : (if 1 < (bayer_matrix dither).1 then
            (bayer_matrix dither).2.getD
              ((row % (bayer_matrix dither).1) * (bayer_matrix dither).1
                + col % (bayer_matrix dither).1) 0 else 0) < 1 := by
          split_ifs
          · exact bayer_getD_lt_one dither _
          · norm_num
        rw [if_neg]
        · rw [hramp0]
          show [kRamp.getD 0 0] = [64]
          decide
        · linarith
  | TrueColor =>
      refine ⟨?_, ?_, ?_⟩
      · show pack_rgb 0 0 0 = 0
        decide
      · show pack_rgb 0 0 0 = 0
        decide
      · intro hcon
        rw [hcontrast0 hcon, hramp0]
        show [kRamp.getD 0 0] = [64]
        decide

/-- C6, amended: for every all-black input frame and every configuration
(with positive gamma and the no-concurrent-mutation live schedule),
every rendered cell's fg is `0x000000` — in all three color modes and
also under half-block — and, when half-block is off and contrast ≥ 1,
every cell's glyph is the *leftmost* ramp character `'@'` (byte 64), not
the rightmost `' '` claimed by the spec: the code indexes the
dense-to-light ramp directly by brightness, so black maps to `'@'`. -/
theorem c6_black_renders_at_and_zero_fg (powFn : ℚ → ℚ → ℚ)
    (hpow : ∀ e : ℚ, 0 < e → powFn 0 e = 0)
    (cfg : RendererConfig) (hγ : 0 < cfg.gamma) (frame : VideoFrame)
    (hdata : ∀ x ∈ frame.data, x = 0) :
    ∀ cell ∈ (render powFn cfg (fun _ => cfg) frame).cells,
      cell.fg = 0
      ∧ (cfg.halfBlock = false → 1 ≤ cfg.contrast → cell.glyph = [64]) := by
  intro cell hcell
  simp only [render, List.mem_flatMap, List.mem_range, List.mem_map] at hcell
  obtain ⟨y, hy, x, hx, rfl⟩ := hcell
  by_cases hb : cfg.halfBlock = true
  · simp only [hb, ite_true, if_true]
    constructor
    · exact (sampleCell_black powFn hpow cfg hγ frame.data hdata _ _ _ _ _ _ _ _).1
    · intro hfalse
      exact absurd hfalse (by decide)
  · have hbf : cfg.halfBlock = false := by simpa using hb
    simp only [hbf, Bool.false_eq_true, ite_false, if_false]
    exact ⟨(sampleCell_black powFn hpow cfg hγ frame.data hdata _ _ _ _ _ _ _ _).1,
      fun _ hcon => (sampleCell_black powFn hpow cfg hγ frame.data hdata _ _ _ _ _ _ _ _).2.2 hcon⟩

/-- C6, witness: the amended theorem at the concrete all-black 1×1
frame and Gray configuration. -/
theorem c6_witness :
    ((render powIdFst cfgC6 (fun _ => cfgC6) frameC6).cells.getD 0 {}).fg = 0
    ∧ ((render powIdFst cfgC6 (fun _ => cfgC6) frameC6).cells.getD 0 {}).glyph = [64] := by
  have hmem : (render powIdFst cfgC6 (fun _ => cfgC6) frameC6).cells.getD 0 {}
      ∈ (render powIdFst cfgC6 (fun _ => cfgC6) frameC6).cells := by
    rw [renderC6_cells]
    decide
  have happ := c6_black_renders_at_and_zero_fg powIdFst (fun e _ => rfl) cfgC6
    (by norm_num [cfgC6]) frameC6 (by decide) _ hmem
  exact ⟨happ.1, happ.2 rfl (by norm_num [cfgC6])⟩

/-! ## C7 — background SGR emission -/

/-- C7, counterexample: in ANSI256 mode with half-block enabled, a row
of two cells with the same background emits the background SGR for both
cells (the `haveColor` flag is only ever set on the truecolor
foreground path, so the guard `!haveColor || bg != currentBg` is always
true): the serialized row contains two `"\x1b[48;2;"` fragments, and
the per-cell emission flags are `[true, true]`, not `[true, false]` as
the claim requires for a repeated background. -/
theorem c7_counterexample :
    bgFlagsRow .ANSI256 true [cellC7, cellC7] = [true, true]
    ∧ countSeq escBgTrue (serializeRow .ANSI256 true [cellC7, cellC7]) = 2
    ∧ bgFlagsRow .ANSI256 true [cellC7, cellC7] ≠ [true, false] :=
  ⟨by decide, by decide, by decide⟩

/-- In Gray and ANSI256 modes the serializer's `haveColor` flag is never
set, so with half-block enabled every cell emits a background SGR. -/
lemma serializeRowAux_nonTC_flags (m : RenderMode) (hm : m ≠ .TrueColor) :
    ∀ (cells : List AsciiCell) (st : RowState), st.haveColor = false →
      (serializeRowAux m true st cells).2 = cells.map fun _ => true := by
  intro cells
  induction cells with
  | nil => intro st _; rfl
  | cons c rest ih =>
      intro st h
      have hcell : (serializeCell m true st c).2.1 = true
          ∧ (serializeCell m true st c).2.2.haveColor = false := by
        cases m with
        | TrueColor => exact absurd rfl hm
        | ANSI256 => simp [serializeCell, h]
        | Gray => simp [serializeCell, h]
      show (serializeCell m true st c).2.1
          :: (serializeRowAux m true (serializeCell m true st c).2.2 rest).2
          = (c :: rest).map fun _ => true
      rw [hcell.1, ih _ hcell.2]
      rfl

/-- Once `haveColor` is set, the TrueColor background emission follows
the "emit iff bg differs from the last emitted bg" pattern. -/
lemma serializeRowAux_TC_flags :
    ∀ (cells : List AsciiCell) (st : RowState), st.haveColor = true →
      (serializeRowAux .TrueColor true st cells).2 = bgSpecTC st.currentBg cells := by
  intro cells
  induction cells with
  | nil => intro st _; rfl
  | cons c rest ih =>
      intro st h
      have hcell : (serializeCell .TrueColor true st c).2.1 = decide (c.bg ≠ st.currentBg)
          ∧ (serializeCell .TrueColor true st c).2.2.haveColor = true
          ∧ (serializeCell .TrueColor true st c).2.2.currentBg
              = (if c.bg ≠ st.currentBg then c.bg else st.currentBg) := by
        by_cases hfg : c.fg = st.currentFg <;> by_cases hbg : c.bg = st.currentBg <;>
          simp [serializeCell, h, hfg, hbg]
      show (serializeCell .TrueColor true st c).2.1
          :: (serializeRowAux .TrueColor true (serializeCell .TrueColor true st c).2.2 rest).2
          = bgSpecTC st.currentBg (c :: rest)
      rw [ih _ hcell.2.1, hcell.1, hcell.2.2]
      by_cases hbg : c.bg = st.currentBg
      · simp [bgSpecTC, hbg]
      · simp [bgSpecTC, hbg]

/-- C7, amended: with half-block enabled, in Gray and ANSI256 modes a
background SGR is emitted for *every* cell of a row (the change-tracking
guard is defeated because `haveColor` is only set on the truecolor
foreground path); in TrueColor mode a background SGR is emitted exactly
when the cell's bg differs from the last emitted bg of the row, with the
tracker seeded at `0x000000` — so the first cell of a row emits only if
its bg is nonzero, not unconditionally. -/
theorem c7_bg_emission_by_mode :
    (∀ (m : RenderMode), m ≠ .TrueColor → ∀ cells : List AsciiCell,
        bgFlagsRow m true cells = cells.map fun _ => true)
    ∧ (∀ cells : List AsciiCell,
        bgFlagsRow .TrueColor true cells = bgSpecTC 0 cells) := by
  constructor
  · intro m hm cells
    exact serializeRowAux_nonTC_flags m hm cells rowStateOrigin rfl
  · intro cells
    cases cells with
    | nil => rfl
    | cons c rest =>
        have hcell : (serializeCell .TrueColor true rowStateOrigin c).2.1 = decide (c.bg ≠ 0)
            ∧ (serializeCell .TrueColor true rowStateOrigin c).2.2.haveColor = true
            ∧ (serializeCell .TrueColor true rowStateOrigin c).2.2.currentBg
                = (if c.bg ≠ 0 then c.bg else 0) := by
          by_cases hbg : c.bg = 0 <;> simp [serializeCell, rowStateOrigin, hbg]
        show (serializeCell .TrueColor true rowStateOrigin c).2.1
            :: (serializeRowAux .TrueColor true
                  (serializeCell .TrueColor true rowStateOrigin c).2.2 rest).2
            = bgSpecTC 0 (c :: rest)
        rw [serializeRowAux_TC_flags rest _ hcell.2.1, hcell.1, hcell.2.2]
        by_cases hbg : c.bg = 0
        · simp [bgSpecTC, hbg]
        · simp [bgSpecTC, hbg]

/-- C7, witness: the amended theorem at a one-cell ANSI256 row and a
one-cell TrueColor row. -/
theorem c7_witness :
    bgFlagsRow .ANSI256 true [cellC7] = [cellC7].map (fun _ => true)
    ∧ bgFlagsRow .TrueColor true [cellC7] = bgSpecTC 0 [cellC7] :=
  ⟨c7_bg_emission_by_mode.1 .ANSI256 (by decide) [cellC7],
   c7_bg_emission_by_mode.2 [cellC7]⟩

/-! ## C10 — exporter glyph substitution -/

/-- C10: in `Exporter::blitAscii`, a cell whose glyph's first byte lies
outside printable ASCII (below 32 or above 126, as an unsigned byte —
the source compares a signed `char`, which rejects the same byte set)
is rasterized with the bitmap for `'#'` (byte 35); consequently, since
half-block rendering gives every cell the multi-byte UTF-8 glyph `"▄"`
(first byte 0xE2), every cell of an exported half-block frame is blitted
as `'#'` in that cell's fg over its bg. -/
theorem c10_halfblock_exports_hash :
    (∀ (glyph : List ℕ) (b : ℕ), glyph.head? = some b → b < 256 → b < 32 ∨ 126 < b →
        exportGlyphByte glyph = 35)
    ∧ (∀ (powFn : ℚ → ℚ → ℚ) (cfg : RendererConfig) (liveAt : ℕ → RendererConfig)
        (frame : VideoFrame), cfg.halfBlock = true →
        ∀ cell ∈ (render powFn cfg liveAt frame).cells,
          blitCall cell = (35, cell.fg, cell.bg)) := by
  constructor
  · intro glyph b hb hb256 hout
    have hh : glyph.headD 32 = b := by
      cases glyph with
      | nil => simp at hb
      | cons a rest =>
          simp only [List.head?, Option.some.injEq] at hb
          simp [hb]
    simp only [exportGlyphByte, hh]
    split_ifs with h1 h2 h2 <;> first | rfl | omega
  · intro powFn cfg liveAt frame hhb cell hcell
    simp only [render] at hcell
    simp only [List.mem_flatMap, List.mem_range, List.mem_map] at hcell
    obtain ⟨y, hy, x, hx, rfl⟩ := hcell
    simp only [hhb, if_true, ite_true, blitCall]
    rw [show exportGlyphByte halfBlockGlyph = 35 from by decide]

/-- Staged evaluation of the C10 render: one half-block cell, white
bottom over black top. -/
lemma renderC10_eval :
    render powZero cfgC10 (fun _ => cfgC10) frameC10
      = { cols := 1, rows := 1, halfBlock := true, pts := 0,
          cells := [⟨halfBlockGlyph, 16777215, 0⟩],
          terminalString :=
            serializeFrame .TrueColor true 1 1 [⟨halfBlockGlyph, 16777215, 0⟩] } := by
  with_unfolding_all rfl

/-- C10, witness: the substitution applied to the half-block glyph
itself, and to the single cell of a concrete exported half-block
frame. -/
theorem c10_witness :
    exportGlyphByte halfBlockGlyph = 35
    ∧ blitCall ((render powZero cfgC10 (fun _ => cfgC10) frameC10).cells.getD 0 {})
        = (35, ((render powZero cfgC10 (fun _ => cfgC10) frameC10).cells.getD 0 {}).fg,
           ((render powZero cfgC10 (fun _ => cfgC10) frameC10).cells.getD 0 {}).bg) := by
  refine ⟨c10_halfblock_exports_hash.1 halfBlockGlyph 226 (by decide) (by decide) (by decide), ?_⟩
  apply c10_halfblock_exports_hash.2 powZero cfgC10 (fun _ => cfgC10) frameC10 rfl
  rw [renderC10_eval]
  decide

/-! ## C4 — palette self-lookup -/

/-- Squared distances are nonnegative. -/
lemma sqDist_nonneg (p : ℕ × ℕ × ℕ) (r g b : ℕ) : 0 ≤ sqDist p r g b := by
  unfold sqDist
  positivity

/-- A squared distance vanishes exactly on the equal triple. -/
lemma sqDist_eq_zero_iff (p : ℕ × ℕ × ℕ) (r g b : ℕ) :
    sqDist p r g b = 0 ↔ p = (r, g, b) := by
  unfold sqDist
  constructor
  · intro hsum
    have s1 := sq_nonneg ((p.1 : ℤ) - r)
    have s2 := sq_nonneg ((p.2.1 : ℤ) - g)
    have s3 := sq_nonneg ((p.2.2 : ℤ) - b)
    have e1 : ((p.1 : ℤ) - r) ^ 2 = 0 := by nlinarith
    have e2 : ((p.2.1 : ℤ) - g) ^ 2 = 0 := by nlinarith
    have e3 : ((p.2.2 : ℤ) - b) ^ 2 = 0 := by nlinarith
    have f1 : p.1 = r := by
      have h0 : ((p.1 : ℤ) - r) = 0 := sq_eq_zero_iff.mp e1
      exact_mod_cast sub_eq_zero.mp h0
    have f2 : p.2.1 = g := by
      have h0 : ((p.2.1 : ℤ) - g) = 0 := sq_eq_zero_iff.mp e2
      exact_mod_cast sub_eq_zero.mp h0
    have f3 : p.2.2 = b := by
      have h0 : ((p.2.2 : ℤ) - b) = 0 := sq_eq_zero_iff.mp e3
      exact_mod_cast sub_eq_zero.mp h0
    calc p = (p.1, p.2.1, p.2.2) := rfl
      _ = (r, g, b) := by rw [f1, f2, f3]
  · rintro rfl
    ring

/-- The scan-loop invariant of `xterm_index_from_rgb` holds after
folding any palette suffix. -/
lemma xtermScan_spec (r g b : ℕ) :
    ∀ (pal : List (ℕ × ℕ × ℕ)) (k bIdx : ℕ) (dAcc : ℤ),
      ScanSpec r g b pal k bIdx dAcc (pal.foldl (xtermScanStep r g b) (k, bIdx, dAcc)) := by
  intro pal
  induction pal with
  | nil =>
      intro k bIdx dAcc
      refine ⟨by simp, le_refl _, ?_, Or.inl ⟨rfl, rfl⟩⟩
      intro m hm
      simp at hm
  | cons p rest ih =>
      intro k bIdx dAcc
      rw [List.foldl_cons]
      by_cases hd : sqDist p r g b < dAcc
      · have hstep : xtermScanStep r g b (k, bIdx, dAcc) p = (k + 1, k, sqDist p r g b) := by
          simp [xtermScanStep, hd]
        rw [hstep]
        obtain ⟨ih1, ih2, ih3, ih4⟩ := ih (k + 1) k (sqDist p r g b)
        refine ⟨by rw [ih1]; simp; omega, le_trans ih2 (le_of_lt hd), ?_, ?_⟩
        · intro m hm
          cases m with
          | zero => simpa using ih2
          | succ mB =>
              have hmB : mB < rest.length := by simpa using hm
              simpa using ih3 mB hmB
        · cases ih4 with
          | inl hkeep =>
              refine Or.inr ⟨0, by simp, ?_, ?_, ?_, ?_⟩
              · rw [hkeep.1]; omega
              · simpa using hkeep.2
              · rw [hkeep.2]; exact hd
              · intro mB hmB hmB2
                omega
          | inr hrep =>
              obtain ⟨m, hm, h1, h2, h3, h4⟩ := hrep
              refine Or.inr ⟨m + 1, by simpa using hm, by rw [h1]; omega, by simpa using h2,
                lt_trans h3 hd, ?_⟩
              intro mB hmlt hmB
              cases mB with
              | zero => simpa using h3
              | succ mC =>
                  have hc : mC < m := by omega
                  have hmC : mC < rest.length := by simpa using hmB
                  simpa using h4 mC hc hmC
      · have hstep : xtermScanStep r g b (k, bIdx, dAcc) p = (k + 1, bIdx, dAcc) := by
          simp [xtermScanStep, hd]
        rw [hstep]
        obtain ⟨ih1, ih2, ih3, ih4⟩ := ih (k + 1) bIdx dAcc
        have hge : dAcc ≤ sqDist p r g b := not_lt.mp hd
        refine ⟨by rw [ih1]; simp; omega, ih2, ?_, ?_⟩
        · intro m hm
          cases m with
          | zero => simpa using le_trans ih2 hge
          | succ mB =>
              have hmB : mB < rest.length := by simpa using hm
              simpa using ih3 mB hmB
        · cases ih4 with
          | inl hkeep => exact Or.inl hkeep
          | inr hrep =>
              obtain ⟨m, hm, h1, h2, h3, h4⟩ := hrep
              refine Or.inr ⟨m + 1, by simpa using hm, by rw [h1]; omega, by simpa using h2,
                h3, ?_⟩
              intro mB hmlt hmB
              cases mB with
              | zero => simpa using lt_of_lt_of_le h3 hge
              | succ mC =>
                  have hc : mC < m := by omega
                  have hmC : mC < rest.length := by simpa using hmB
                  simpa using h4 mC hc hmC

/-- The palette has 256 entries. -/
lemma make_xterm_palette_length : make_xterm_palette.length = 256 := by decide

/-- C4, counterexample: palette entry 16 (the first cube entry) is
`(0, 0, 0)`, a duplicate of entry 0, and the scan keeps the first index
attaining the minimal distance, so looking up entry 16's own RGB returns
0, not 16. -/
theorem c4_counterexample :
    make_xterm_palette.getD 16 (0, 0, 0) = (0, 0, 0)
    ∧ xterm_index_from_rgb 0 0 0 = 0
    ∧ xterm_index_from_rgb 0 0 0 ≠ 16 := by
  refine ⟨by decide, by decide, by decide⟩

/-- C4, amended: for every palette index `i`,
`xterm_index_from_rgb(palette[i])` returns the *least* index holding the
same RGB value as entry `i` — so the result's palette entry equals
`palette[i]` and the result is at most `i`, with equality exactly when
no smaller index duplicates the color (it differs from `i` for the seven
duplicated entries 16, 46, 51, 196, 201, 226 and 231). -/
theorem c4_palette_roundtrip_least (i : ℕ) (hi : i < 256) (p : ℕ × ℕ × ℕ)
    (hp : make_xterm_palette.getD i (0, 0, 0) = p) :
    make_xterm_palette.getD (xterm_index_from_rgb p.1 p.2.1 p.2.2) (0, 0, 0) = p
    ∧ xterm_index_from_rgb p.1 p.2.1 p.2.2 ≤ i
    ∧ ∀ iB, iB < 256 → make_xterm_palette.getD iB (0, 0, 0) = p →
        xterm_index_from_rgb p.1 p.2.1 p.2.2 ≤ iB := by
  have hlen := make_xterm_palette_length
  have hi' : i < make_xterm_palette.length := by rw [hlen]; exact hi
  obtain ⟨h1, h2, h3, h4⟩ :=
    xtermScan_spec p.1 p.2.1 p.2.2 make_xterm_palette 0 0 2147483647
  have hgetI : make_xterm_palette.get ⟨i, hi'⟩ = p := by
    rw [← hp]
    exact (List.getD_eq_getElem _ _ hi').symm
  have hdistI : sqDist (make_xterm_palette.get ⟨i, hi'⟩) p.1 p.2.1 p.2.2 = 0 := by
    rw [hgetI]
    exact (sqDist_eq_zero_iff p p.1 p.2.1 p.2.2).mpr rfl
  have hle0 : (make_xterm_palette.foldl (xtermScanStep p.1 p.2.1 p.2.2)
      (0, 0, 2147483647)).2.2 ≤ 0 := by
    have := h3 i hi'
    rw [hdistI] at this
    exact this
  cases h4 with
  | inl hkeep =>
      exfalso
      rw [hkeep.2] at hle0
      omega
  | inr hrep =>
      obtain ⟨m, hm, hidx, hdm, _, hleast⟩ := hrep
      have hz : (make_xterm_palette.foldl (xtermScanStep p.1 p.2.1 p.2.2)
          (0, 0, 2147483647)).2.2 = 0 :=
        le_antisymm hle0 (hdm ▸ sqDist_nonneg _ _ _ _)
      have hxm : xterm_index_from_rgb p.1 p.2.1 p.2.2 = m := by
        show (make_xterm_palette.foldl (xtermScanStep p.1 p.2.1 p.2.2)
          (0, 0, 2147483647)).2.1 = m
        rw [hidx]
        omega
      have hpm : make_xterm_palette.get ⟨m, hm⟩ = p := by
        have h0 : sqDist (make_xterm_palette.get ⟨m, hm⟩) p.1 p.2.1 p.2.2 = 0 := by
          rw [← hdm]
          exact hz

        have := (sqDist_eq_zero_iff _ p.1 p.2.1 p.2.2).mp h0
        rw [this]
      have hroundtrip : make_xterm_palette.getD (xterm_index_from_rgb p.1 p.2.1 p.2.2)
          (0, 0, 0) = p := by
        rw [hxm]
        rw [List.getD_eq_getElem _ _ hm]
        exact hpm
      have hnotbefore : ∀ iB, iB < m → ∀ hiB : iB < make_xterm_palette.length,
          make_xterm_palette.get ⟨iB, hiB⟩ ≠ p := by
        intro iB hiBm hiB hcontra
        have := hleast iB hiBm hiB
        rw [hz, hcontra, (sqDist_eq_zero_iff p p.1 p.2.1 p.2.2).mpr rfl] at this
        omega
      refine ⟨hroundtrip, ?_, ?_⟩
      · rw [hxm]
        by_contra hcon
        exact hnotbefore i (by omega) hi' hgetI
      · intro iB hiB256 hiBp
        rw [hxm]
        by_contra hcon
        have hiB' : iB < make_xterm_palette.length := by rw [hlen]; exact hiB256
        refine hnotbefore iB (by omega) hiB' ?_
        rw [← hiBp]
        exact (List.getD_eq_getElem _ _ hiB').symm

/-- C4, witness: the amended theorem at the duplicated entry 16. -/
theorem c4_witness :
    make_xterm_palette.getD (xterm_index_from_rgb 0 0 0) (0, 0, 0) = (0, 0, 0)
    ∧ xterm_index_from_rgb 0 0 0 ≤ 16 :=
  ⟨(c4_palette_roundtrip_least 16 (by norm_num) (0, 0, 0) (by decide)).1,
   (c4_palette_roundtrip_least 16 (by norm_num) (0, 0, 0) (by decide)).2.1⟩

end Asciiplay

